import Mathlib

/-!
# Sharp GP2Y1010AU0F dust sensor driver

Shallow embedding of `src/GP2Y1010AU0F/GP2Y1010AU0F.cpp`.

* The `float` fields are taken in exact rational arithmetic (`ℚ`).
* `int measureCount` is a 32-bit signed integer.  Signed overflow is undefined
  in C++; the increment is embedded with the two's-complement wrap-around of
  the target (`wrapInt32`), and the results on the counter are stated for the
  range in which the increment does not overflow.
* The hardware the driver talks to (two `DigitalOut` lines, one `AnalogIn`
  line, the `wait_us` delay) is observed through an event log `trace`
  carried next to the class fields.  The value returned by each
  `_aout.read()` is an input of the model.
-/

namespace Dust

/-- One interaction of the driver with the hardware. -/
inductive Event where
  /-- a write of `level` to the indicator output `_lightLed` -/
  | lightLed (level : Bool)
  /-- a write of `level` to the infrared emitter output `_iled` -/
  | iled (level : Bool)
  /-- a call `wait_us(us)` -/
  | wait (us : Int)
  /-- a call `_aout.read()` that returned `v` -/
  | sample (v : ℚ)
deriving DecidableEq, Repr

/-- Two's-complement reduction of an integer to the range of a 32-bit `int`. -/
def wrapInt32 (x : Int) : Int := (x + 2147483648) % 4294967296 - 2147483648

/-- The class `GP2Y1010AU0F`: its public fields, the levels of its two
`DigitalOut` members, and the log of hardware interactions. -/
structure GP2Y1010AU0F where
  samplingTime : Int := 280
  deltaTime : Int := 20
  sleepTime : Int := 9680
  dustDensityCN : ℚ := 0
  dustDensitySharp : ℚ := 0
  voMeasured : ℚ := 0
  voCalc : ℚ := 0
  measureCount : Int := 0
  averageSharp : ℚ := 0
  averageCN : ℚ := 0
  _iled : Bool
  _lightLed : Bool
  trace : List Event := []
deriving DecidableEq, Repr

namespace GP2Y1010AU0F

/-- The constructor: every public field takes its in-class initialiser.  The
levels the two `DigitalOut` members start at are decided by the mbed library
and are parameters here. -/
def new (lightLed iled : Bool) : GP2Y1010AU0F :=
  { _iled := iled, _lightLed := lightLed }

/-- The mbed delay `wait_us(us)`: logged, no other effect on the driver. -/
def wait_us (us : Int) (s : GP2Y1010AU0F) : GP2Y1010AU0F :=
  { s with trace := s.trace ++ [Event.wait us] }

/-- Method `_turnILEDOn`: `_iled = 1`. -/
def _turnILEDOn (s : GP2Y1010AU0F) : GP2Y1010AU0F :=
  { s with _iled := true, trace := s.trace ++ [Event.iled true] }

/-- Method `_turnILEDOff`: `_iled = 0`. -/
def _turnILEDOff (s : GP2Y1010AU0F) : GP2Y1010AU0F :=
  { s with _iled := false, trace := s.trace ++ [Event.iled false] }

/-- Method `_switchLightLed`: `_lightLed = !_lightLed`. -/
def _switchLightLed (s : GP2Y1010AU0F) : GP2Y1010AU0F :=
  { s with _lightLed := !s._lightLed, trace := s.trace ++ [Event.lightLed (!s._lightLed)] }

/-- Method `_sampleAOUT`: `return _aout.read()`, where `v` is what the converter
delivers for this read. -/
def _sampleAOUT (v : ℚ) (s : GP2Y1010AU0F) : ℚ × GP2Y1010AU0F :=
  (v, { s with trace := s.trace ++ [Event.sample v] })

/-- The body of the `for` loop of `measure()`, for an iteration in which the
analog read returns `v`. -/
def measureBody (v : ℚ) (s : GP2Y1010AU0F) : GP2Y1010AU0F :=
  let s := s._switchLightLed
  let s := s._turnILEDOn
  let s := s.wait_us s.samplingTime
  let (x, s) := s._sampleAOUT v
  let s := { s with voMeasured := x }
  let s := s.wait_us s.deltaTime
  let s := s._turnILEDOff
  let s := s.wait_us s.sleepTime
  let s := { s with voCalc := s.voMeasured * 5 * 11 }
  let s := { s with dustDensityCN := 0.17 * s.voCalc - 0.1 }
  let s := { s with dustDensitySharp := 0.5 / 2.8 * (s.voCalc - 0.7) }
  let s : GP2Y1010AU0F := if s.dustDensityCN < 0 then { s with dustDensityCN := 0 } else s
  let s : GP2Y1010AU0F := if s.dustDensitySharp < 0 then { s with dustDensitySharp := 0 } else s
  let s := { s with averageSharp := s.averageSharp + s.dustDensitySharp }
  let s := { s with averageCN := s.averageCN + s.dustDensityCN }
  s

/-- The loop `for(int i = 0; i < 5; i++)` of `measure()`, entered with the
loop variable at `i`; iteration `i` reads `r i`. -/
def measureLoop (r : Fin 5 → ℚ) (i : Nat) (s : GP2Y1010AU0F) : GP2Y1010AU0F :=
  if h : i < 5 then measureLoop r (i + 1) (measureBody (r ⟨i, h⟩) s) else s
termination_by 5 - i

/-- Method `measure()`, where `r i` is the value the analog read returns in
iteration `i`. -/
def measure (s : GP2Y1010AU0F) (r : Fin 5 → ℚ) : GP2Y1010AU0F :=
  let s := measureLoop r 0 s
  let s := { s with averageSharp := s.averageSharp / 5 }
  let s := { s with averageCN := s.averageCN / 5 }
  let s := { s with measureCount := wrapInt32 (s.measureCount + 1) }
  s

/-- Calling `measure()` once per entry of `rs`, in order. -/
def measureN (s : GP2Y1010AU0F) (rs : List (Fin 5 → ℚ)) : GP2Y1010AU0F :=
  rs.foldl measure s

end GP2Y1010AU0F

/-- Density of formula A (Chris Nafis) for a raw reading, clamped at zero, as
the specification words it. -/
def dA (r : ℚ) : ℚ := max 0 (0.17 * (r * 5 * 11) - 0.1)

/-- Density of formula B (Sharp) for a raw reading, clamped at zero, as the
specification words it. -/
def dB (r : ℚ) : ℚ := max 0 (0.5 / 2.8 * ((r * 5 * 11) - 0.7))

/-- The levels written to the indicator output, in order, in an event log. -/
def lightLedWrites : List Event → List Bool
  | [] => []
  | Event.lightLed level :: es => level :: lightLedWrites es
  | _ :: es => lightLedWrites es

/-- The values returned by the analog reads, in order, in an event log. -/
def samplesRead : List Event → List ℚ
  | [] => []
  | Event.sample v :: es => v :: samplesRead es
  | _ :: es => samplesRead es

/-- Virtual clock: the sum of the arguments of all `wait_us` calls in an
event log. -/
def totalDelay : List Event → Int
  | [] => 0
  | Event.wait us :: es => us + totalDelay es
  | _ :: es => totalDelay es

/-- Virtual time spent with the infrared emitter on (first component) and off
(second component) over an event log that starts with the emitter at `level`:
each `wait_us` is charged to the level the emitter has when it is called. -/
def emitterTime : Bool → List Event → Int × Int
  | _, [] => (0, 0)
  | _, Event.iled level :: es => emitterTime level es
  | level, Event.wait us :: es =>
      let t := emitterTime level es
      if level then (t.1 + us, t.2) else (t.1, t.2 + us)
  | level, _ :: es => emitterTime level es

/-- Number of characters before the decimal point when the C conversion `%f`
prints a non-negative value: `%f` rounds to six decimals and prints the integer
part of the rounded value in decimal, a lone `0` when that part is zero. -/
def percentFIntegerDigits (x : ℚ) : ℕ :=
  let n := (round (x * 1000000) / 1000000).toNat
  if n = 0 then 1 else (Nat.digits 10 n).length

namespace GP2Y1010AU0F

/-- The events one loop iteration adds to the log. -/
def iterationEvents (s : GP2Y1010AU0F) (level : Bool) (v : ℚ) : List Event :=
  [Event.lightLed level, Event.iled true, Event.wait s.samplingTime, Event.sample v,
   Event.wait s.deltaTime, Event.iled false, Event.wait s.sleepTime]

theorem measureBody_eq (v : ℚ) (s : GP2Y1010AU0F) :
    measureBody v s =
      { s with
        _lightLed := !s._lightLed
        _iled := false
        trace := s.trace ++ iterationEvents s (!s._lightLed) v
        voMeasured := v
        voCalc := v * 5 * 11
        dustDensityCN := dA v
        dustDensitySharp := dB v
        averageSharp := s.averageSharp + dB v
        averageCN := s.averageCN + dA v } := by
  cases s
  simp only [measureBody, _switchLightLed, _turnILEDOn, _turnILEDOff, wait_us, _sampleAOUT,
    dA, dB, iterationEvents]
  split_ifs with h1 h2 h2
  · simp [max_eq_left h1.le, max_eq_left h2.le]
  · simp [max_eq_left h1.le, max_eq_right (not_lt.mp h2)]
  · simp [max_eq_right (not_lt.mp h1), max_eq_left h2.le]
  · simp [max_eq_right (not_lt.mp h1), max_eq_right (not_lt.mp h2)]

theorem measureLoop_eq (r : Fin 5 → ℚ) (s : GP2Y1010AU0F) :
    measureLoop r 0 s =
      measureBody (r 4) (measureBody (r 3) (measureBody (r 2) (measureBody (r 1)
        (measureBody (r 0) s)))) := by
  rw [measureLoop, dif_pos (by decide), measureLoop, dif_pos (by decide),
    measureLoop, dif_pos (by decide), measureLoop, dif_pos (by decide),
    measureLoop, dif_pos (by decide), measureLoop, dif_neg (by decide)]
  rfl

/-- The state `measure()` leaves behind, field by field. -/
theorem measure_eq (s : GP2Y1010AU0F) (r : Fin 5 → ℚ) :
    s.measure r =
      { s with
        _lightLed := !s._lightLed
        _iled := false
        trace := s.trace ++ (iterationEvents s (!s._lightLed) (r 0) ++
          iterationEvents s s._lightLed (r 1) ++ iterationEvents s (!s._lightLed) (r 2) ++
          iterationEvents s s._lightLed (r 3) ++ iterationEvents s (!s._lightLed) (r 4))
        voMeasured := r 4
        voCalc := r 4 * 5 * 11
        dustDensityCN := dA (r 4)
        dustDensitySharp := dB (r 4)
        averageSharp := (s.averageSharp + dB (r 0) + dB (r 1) + dB (r 2) + dB (r 3) + dB (r 4)) / 5
        averageCN := (s.averageCN + dA (r 0) + dA (r 1) + dA (r 2) + dA (r 3) + dA (r 4)) / 5
        measureCount := wrapInt32 (s.measureCount + 1) } := by
  cases s
  simp only [GP2Y1010AU0F.measure, measureLoop_eq, measureBody_eq, iterationEvents,
    Bool.not_not, List.append_assoc]

theorem dA_nonneg (r : ℚ) : 0 ≤ dA r := le_max_left _ _

theorem dB_nonneg (r : ℚ) : 0 ≤ dB r := le_max_left _ _

theorem averages_nonneg_step (s : GP2Y1010AU0F) (r : Fin 5 → ℚ)
    (hCN : 0 ≤ s.averageCN) (hSharp : 0 ≤ s.averageSharp) :
    0 ≤ (s.measure r).averageCN ∧ 0 ≤ (s.measure r).averageSharp := by
  rw [measure_eq]
  have a0 := dA_nonneg (r 0)
  have a1 := dA_nonneg (r 1)
  have a2 := dA_nonneg (r 2)
  have a3 := dA_nonneg (r 3)
  have a4 := dA_nonneg (r 4)
  have b0 := dB_nonneg (r 0)
  have b1 := dB_nonneg (r 1)
  have b2 := dB_nonneg (r 2)
  have b3 := dB_nonneg (r 3)
  have b4 := dB_nonneg (r 4)
  constructor
  · show 0 ≤ (s.averageCN + dA (r 0) + dA (r 1) + dA (r 2) + dA (r 3) + dA (r 4)) / 5
    apply div_nonneg _ (by norm_num)
    linarith
  · show 0 ≤ (s.averageSharp + dB (r 0) + dB (r 1) + dB (r 2) + dB (r 3) + dB (r 4)) / 5
    apply div_nonneg _ (by norm_num)
    linarith

theorem averages_nonneg_measureN (rs : List (Fin 5 → ℚ)) :
    ∀ s : GP2Y1010AU0F, 0 ≤ s.averageCN → 0 ≤ s.averageSharp →
      0 ≤ (s.measureN rs).averageCN ∧ 0 ≤ (s.measureN rs).averageSharp := by
  induction rs with
  | nil => intro s h1 h2; exact ⟨h1, h2⟩
  | cons r rs ih =>
    intro s h1 h2
    have h := averages_nonneg_step s r h1 h2
    exact ih (s.measure r) h.1 h.2

/-- C9: for every sampler state and every 5 raw readings, the averages after
`measure()` are the previous average plus the 5 clamped per-sample densities
of the call, divided by 5: the accumulators are not reset at the start of a
batch, so the previous batch average enters the new one with weight 1/5. -/
theorem measure_average_carries_previous (s : GP2Y1010AU0F) (r : Fin 5 → ℚ) :
    (s.measure r).averageCN =
        (s.averageCN + dA (r 0) + dA (r 1) + dA (r 2) + dA (r 3) + dA (r 4)) / 5 ∧
      (s.measure r).averageSharp =
        (s.averageSharp + dB (r 0) + dB (r 1) + dB (r 2) + dB (r 3) + dB (r 4)) / 5 := by
  rw [measure_eq]
  exact ⟨rfl, rfl⟩

/-- C1 (evaluation of the code where the claim fails): on a freshly
constructed sampler, a batch of five readings 0.5 followed by a batch of five
readings 0 leaves `averageCN = 183/200` and `averageSharp = 67/70`, whereas the
arithmetic mean of the five clamped densities of the second batch is 0 for
both formulas. -/
theorem measure_second_batch_not_mean :
    (((GP2Y1010AU0F.new false false).measure (fun _ => 0.5)).measure (fun _ => 0)).averageCN
        = 183 / 200 ∧
      (((GP2Y1010AU0F.new false false).measure (fun _ => 0.5)).measure (fun _ => 0)).averageSharp
        = 67 / 70 ∧
      (dA 0 + dA 0 + dA 0 + dA 0 + dA 0) / 5 = 0 ∧
      (dB 0 + dB 0 + dB 0 + dB 0 + dB 0) / 5 = 0 := by
  have hA0 : dA 0 = 0 := by norm_num [dA]
  have hB0 : dB 0 = 0 := by norm_num [dB]
  have hA : dA 0.5 = 183 / 40 := by norm_num [dA]
  have hB : dB 0.5 = 67 / 14 := by norm_num [dB]
  refine ⟨?_, ?_, by rw [hA0]; norm_num, by rw [hB0]; norm_num⟩
  · rw [measure_eq, measure_eq]
    show ((0 + dA 0.5 + dA 0.5 + dA 0.5 + dA 0.5 + dA 0.5) / 5
      + dA 0 + dA 0 + dA 0 + dA 0 + dA 0) / 5 = 183 / 200
    rw [hA, hA0]; norm_num
  · rw [measure_eq, measure_eq]
    show ((0 + dB 0.5 + dB 0.5 + dB 0.5 + dB 0.5 + dB 0.5) / 5
      + dB 0 + dB 0 + dB 0 + dB 0 + dB 0) / 5 = 67 / 70
    rw [hB, hB0]; norm_num

/-- C3: non-negativity of the averaged densities is an invariant of the
sampler.  Both averages are non-negative in the freshly constructed state;
`measure()` keeps them non-negative for every 5 raw readings of any sign or
magnitude; hence they are non-negative after any number of `measure()`
calls. -/
theorem averages_nonneg_invariant :
    (∀ lightLed iled : Bool,
        0 ≤ (GP2Y1010AU0F.new lightLed iled).averageCN ∧
        0 ≤ (GP2Y1010AU0F.new lightLed iled).averageSharp) ∧
      (∀ (s : GP2Y1010AU0F) (r : Fin 5 → ℚ), 0 ≤ s.averageCN → 0 ≤ s.averageSharp →
        0 ≤ (s.measure r).averageCN ∧ 0 ≤ (s.measure r).averageSharp) ∧
      (∀ (lightLed iled : Bool) (rs : List (Fin 5 → ℚ)),
        0 ≤ ((GP2Y1010AU0F.new lightLed iled).measureN rs).averageCN ∧
        0 ≤ ((GP2Y1010AU0F.new lightLed iled).measureN rs).averageSharp) := by
  refine ⟨fun _ _ => ⟨le_refl _, le_refl _⟩, averages_nonneg_step, ?_⟩
  intro l i rs
  exact averages_nonneg_measureN rs _ (le_refl _) (le_refl _)

/-- Witness for C3: a sampler whose averages are 3 and 4 is given five
negative readings; the hypotheses hold and the averages stay non-negative. -/
theorem averages_nonneg_invariant_witness :
    0 ≤ ({ GP2Y1010AU0F.new false false with averageCN := 3, averageSharp := 4 }
          : GP2Y1010AU0F).averageCN ∧
      0 ≤ (({ GP2Y1010AU0F.new false false with averageCN := 3, averageSharp := 4 }
          : GP2Y1010AU0F).measure (fun _ => -7)).averageCN ∧
      0 ≤ (({ GP2Y1010AU0F.new false false with averageCN := 3, averageSharp := 4 }
          : GP2Y1010AU0F).measure (fun _ => -7)).averageSharp :=
  ⟨by norm_num,
    averages_nonneg_invariant.2.1 _ (fun _ => -7) (by norm_num) (by norm_num)⟩

/-- C4: for every sampler state and every 5 raw readings, after `measure()`
the diagnostic fields describe the 5th sample only: `voMeasured = r5`,
`voCalc = r5*5*11`, `dustDensityCN = max(0, 0.17*voCalc - 0.1)` and
`dustDensitySharp = max(0, (0.5/2.8)*(voCalc - 0.7))`; two calls that share
the 5th reading leave the same four values, whatever the other readings and
the states before the calls. -/
theorem measure_diagnostics_last_sample (s : GP2Y1010AU0F) (r : Fin 5 → ℚ) :
    ((s.measure r).voMeasured = r 4 ∧
      (s.measure r).voCalc = r 4 * 5 * 11 ∧
      (s.measure r).dustDensityCN = max 0 (0.17 * (s.measure r).voCalc - 0.1) ∧
      (s.measure r).dustDensitySharp = max 0 (0.5 / 2.8 * ((s.measure r).voCalc - 0.7))) ∧
    (∀ (t : GP2Y1010AU0F) (a b c d : ℚ),
      (t.measure ![a, b, c, d, r 4]).voMeasured = (s.measure r).voMeasured ∧
      (t.measure ![a, b, c, d, r 4]).voCalc = (s.measure r).voCalc ∧
      (t.measure ![a, b, c, d, r 4]).dustDensityCN = (s.measure r).dustDensityCN ∧
      (t.measure ![a, b, c, d, r 4]).dustDensitySharp = (s.measure r).dustDensitySharp) := by
  refine ⟨?_, ?_⟩
  · rw [measure_eq]
    exact ⟨rfl, rfl, rfl, rfl⟩
  · intro t a b c d
    rw [measure_eq, measure_eq]
    exact ⟨rfl, rfl, rfl, rfl⟩

/-- C6: on a freshly constructed sampler, if all 5 raw readings of a
`measure()` call are 0.5 then every iteration computes `voCalc = 27.5`,
`dustDensityCN = 4.575 = 183/40` and
`dustDensitySharp = (0.5/2.8)*26.8 = 67/14`, and after the call
`averageCN = 183/40` and `averageSharp = 67/14`: both averages equal the
per-sample values. -/
theorem measure_fresh_half_readings (lightLed iled : Bool) :
    (∀ t : GP2Y1010AU0F,
        (measureBody 0.5 t).voCalc = 27.5 ∧
        (measureBody 0.5 t).dustDensityCN = 4.575 ∧
        (measureBody 0.5 t).dustDensityCN = 183 / 40 ∧
        (measureBody 0.5 t).dustDensitySharp = 0.5 / 2.8 * 26.8 ∧
        (measureBody 0.5 t).dustDensitySharp = 67 / 14) ∧
      ((GP2Y1010AU0F.new lightLed iled).measure (fun _ => 0.5)).voCalc = 27.5 ∧
      ((GP2Y1010AU0F.new lightLed iled).measure (fun _ => 0.5)).averageCN = 183 / 40 ∧
      ((GP2Y1010AU0F.new lightLed iled).measure (fun _ => 0.5)).averageSharp = 67 / 14 ∧
      ((GP2Y1010AU0F.new lightLed iled).measure (fun _ => 0.5)).averageCN =
        ((GP2Y1010AU0F.new lightLed iled).measure (fun _ => 0.5)).dustDensityCN ∧
      ((GP2Y1010AU0F.new lightLed iled).measure (fun _ => 0.5)).averageSharp =
        ((GP2Y1010AU0F.new lightLed iled).measure (fun _ => 0.5)).dustDensitySharp := by
  have hA : dA 0.5 = 183 / 40 := by norm_num [dA]
  have hB : dB 0.5 = 67 / 14 := by norm_num [dB]
  refine ⟨?_, ?_⟩
  · intro t
    rw [measureBody_eq]
    refine ⟨?_, ?_, ?_, ?_, ?_⟩
    · show (0.5 : ℚ) * 5 * 11 = 27.5
      norm_num
    · show dA 0.5 = 4.575
      rw [hA]; norm_num
    · exact hA
    · show dB 0.5 = 0.5 / 2.8 * 26.8
      rw [hB]; norm_num
    · exact hB
  · rw [measure_eq]
    refine ⟨?_, ?_, ?_, ?_, ?_⟩
    · show (0.5 : ℚ) * 5 * 11 = 27.5
      norm_num
    · show (0 + dA 0.5 + dA 0.5 + dA 0.5 + dA 0.5 + dA 0.5) / 5 = 183 / 40
      rw [hA]; norm_num
    · show (0 + dB 0.5 + dB 0.5 + dB 0.5 + dB 0.5 + dB 0.5) / 5 = 67 / 14
      rw [hB]; norm_num
    · show (0 + dA 0.5 + dA 0.5 + dA 0.5 + dA 0.5 + dA 0.5) / 5 = dA 0.5
      rw [hA]; norm_num
    · show (0 + dB 0.5 + dB 0.5 + dB 0.5 + dB 0.5 + dB 0.5) / 5 = dB 0.5
      rw [hB]; norm_num

theorem wrapInt32_of_inRange (x : Int) (hlo : -2147483648 ≤ x) (hhi : x ≤ 2147483647) :
    wrapInt32 x = x := by
  unfold wrapInt32
  omega

theorem measureCount_measure (s : GP2Y1010AU0F) (r : Fin 5 → ℚ) :
    (s.measure r).measureCount = wrapInt32 (s.measureCount + 1) := by
  rw [measure_eq]

theorem measureCount_measureN (rs : List (Fin 5 → ℚ)) :
    ∀ s : GP2Y1010AU0F, -2147483648 ≤ s.measureCount →
      s.measureCount + rs.length ≤ 2147483647 →
      (s.measureN rs).measureCount = s.measureCount + rs.length := by
  induction rs with
  | nil => intro s _ _; simp [measureN]
  | cons r rs ih =>
    intro s hlo hhi
    simp only [List.length_cons, Nat.cast_add, Nat.cast_one] at hhi
    have hstep : (s.measure r).measureCount = s.measureCount + 1 := by
      rw [measureCount_measure]
      exact wrapInt32_of_inRange _ (by omega) (by omega)
    have h := ih (s.measure r) (by omega) (by omega)
    show ((s.measure r).measureN rs).measureCount = _
    rw [h, hstep]
    simp only [List.length_cons, Nat.cast_add, Nat.cast_one]
    ring

/-- C2: for every number N of consecutive `measure()` calls, every starting
state whose counter is a 32-bit `int` and every choice of the 5*N readings,
provided start + N does not exceed the `int` maximum, `measureCount` ends at
its starting value plus exactly N; after the first k of the calls it is the
starting value plus k, so it goes up by one per call, never decreases and is
never reset. -/
theorem measureCount_after_N_calls (s : GP2Y1010AU0F) (rs : List (Fin 5 → ℚ))
    (hlo : -2147483648 ≤ s.measureCount)
    (hhi : s.measureCount + rs.length ≤ 2147483647) :
    (s.measureN rs).measureCount = s.measureCount + rs.length ∧
      ∀ k : Nat, k ≤ rs.length →
        (s.measureN (rs.take k)).measureCount = s.measureCount + k := by
  refine ⟨measureCount_measureN rs s hlo hhi, ?_⟩
  intro k hk
  have hlen : (rs.take k).length = k := by simp [hk]
  have h := measureCount_measureN (rs.take k) s hlo (by rw [hlen]; omega)
  rw [h, hlen]

/-- Witness for C2: three calls on a sampler whose counter stands at 41, with
readings 0.5, 0 and 2 in the three batches. -/
theorem measureCount_after_N_calls_witness :
    (({ GP2Y1010AU0F.new false false with measureCount := 41 } : GP2Y1010AU0F).measureN
        [fun _ => 0.5, fun _ => 0, fun _ => 2]).measureCount = 41 + 3 :=
  (measureCount_after_N_calls
    ({ GP2Y1010AU0F.new false false with measureCount := 41 } : GP2Y1010AU0F)
    [fun _ => 0.5, fun _ => 0, fun _ => 2] (by decide) (by decide)).1

theorem measureBody_newEvents (v : ℚ) (t : GP2Y1010AU0F) :
    (measureBody v t).trace.drop t.trace.length = iterationEvents t (!t._lightLed) v := by
  rw [measureBody_eq]
  exact List.drop_left _ _

theorem measure_newEvents (s : GP2Y1010AU0F) (r : Fin 5 → ℚ) :
    (s.measure r).trace.drop s.trace.length =
      iterationEvents s (!s._lightLed) (r 0) ++
        iterationEvents s s._lightLed (r 1) ++ iterationEvents s (!s._lightLed) (r 2) ++
        iterationEvents s s._lightLed (r 3) ++ iterationEvents s (!s._lightLed) (r 4) := by
  rw [measure_eq]
  exact List.drop_left _ _

theorem measure_trace_extends (s : GP2Y1010AU0F) (r : Fin 5 → ℚ) :
    s.trace <+: (s.measure r).trace := by
  rw [measure_eq]
  exact List.prefix_append _ _

/-- C7: for every sampler state and every 5 raw readings, one call of
`measure()` inverts the indicator output exactly 5 times.  Each loop
iteration starts by writing the negated level and writes the indicator
nowhere else; over the call the log gains exactly the five writes
not l, l, not l, l, not l (l the level before the call), which does not
depend on the readings; the level after the call is the negation of the level
before it. -/
theorem measure_inverts_lightLed_five_times (s : GP2Y1010AU0F) (r : Fin 5 → ℚ) :
    (∀ (v : ℚ) (t : GP2Y1010AU0F), ∃ rest : List Event,
        (measureBody v t).trace = t.trace ++ Event.lightLed (!t._lightLed) :: rest ∧
        lightLedWrites rest = [] ∧
        (measureBody v t)._lightLed = !t._lightLed) ∧
      s.trace <+: (s.measure r).trace ∧
      lightLedWrites ((s.measure r).trace.drop s.trace.length) =
        [!s._lightLed, s._lightLed, !s._lightLed, s._lightLed, !s._lightLed] ∧
      (lightLedWrites ((s.measure r).trace.drop s.trace.length)).length = 5 ∧
      (s.measure r)._lightLed = !s._lightLed := by
  refine ⟨?_, measure_trace_extends s r, ?_, ?_, ?_⟩
  · intro v t
    refine ⟨[Event.iled true, Event.wait t.samplingTime, Event.sample v,
      Event.wait t.deltaTime, Event.iled false, Event.wait t.sleepTime], ?_, rfl, ?_⟩
    · rw [measureBody_eq]
      rfl
    · rw [measureBody_eq]
  · rw [measure_newEvents]
    rfl
  · rw [measure_newEvents]
    rfl
  · rw [measure_eq]

/-- C8: with `wait_us` advancing a virtual clock by its argument, for every
sampler state and every 5 raw readings the delays requested by one call of
`measure()` add up to 5 * (samplingTime + deltaTime + sleepTime), which is
49900 microseconds for the default field values 280, 20 and 9680 of a fresh
sampler; within each iteration the emitter is on for exactly
samplingTime + deltaTime and off for sleepTime, and the call leaves the three
timing fields as they were. -/
theorem measure_total_delay (s : GP2Y1010AU0F) (r : Fin 5 → ℚ) :
    s.trace <+: (s.measure r).trace ∧
      totalDelay ((s.measure r).trace.drop s.trace.length) =
        5 * (s.samplingTime + s.deltaTime + s.sleepTime) ∧
      (∀ lightLed iled : Bool,
        totalDelay ((GP2Y1010AU0F.new lightLed iled).measure r).trace = 49900) ∧
      (∀ (v : ℚ) (t : GP2Y1010AU0F),
        emitterTime t._iled ((measureBody v t).trace.drop t.trace.length) =
          (t.samplingTime + t.deltaTime, t.sleepTime) ∧
        (measureBody v t).samplingTime = t.samplingTime ∧
        (measureBody v t).deltaTime = t.deltaTime ∧
        (measureBody v t).sleepTime = t.sleepTime) ∧
      emitterTime s._iled ((s.measure r).trace.drop s.trace.length) =
        (5 * (s.samplingTime + s.deltaTime), 5 * s.sleepTime) := by
  refine ⟨measure_trace_extends s r, ?_, ?_, ?_, ?_⟩
  · rw [measure_newEvents]
    simp only [iterationEvents, List.cons_append, List.nil_append, totalDelay]
    ring
  · intro l i
    rw [measure_eq]
    simp only [GP2Y1010AU0F.new, iterationEvents, List.cons_append, List.nil_append, totalDelay]
    rfl
  · intro v t
    rw [measureBody_newEvents]
    refine ⟨?_, ?_, ?_, ?_⟩
    · simp [iterationEvents, emitterTime, add_comm]
    · rw [measureBody_eq]
    · rw [measureBody_eq]
    · rw [measureBody_eq]
  · rw [measure_newEvents]
    simp only [iterationEvents, List.cons_append, List.nil_append, emitterTime]
    simp
    constructor <;> ring

theorem dA_le_of_unit (r : ℚ) (h1 : r ≤ 1) : dA r ≤ 37 / 4 := by
  unfold dA
  apply max_le
  · norm_num
  · norm_num
    linarith

theorem dB_le_of_unit (r : ℚ) (h1 : r ≤ 1) : dB r ≤ 543 / 56 := by
  unfold dB
  apply max_le
  · norm_num
  · norm_num
    linarith

theorem averages_bounded_step (s : GP2Y1010AU0F) (r : Fin 5 → ℚ)
    (hr : ∀ j, 0 ≤ r j ∧ r j ≤ 1)
    (hCN : s.averageCN ≤ 185 / 16) (hSharp : s.averageSharp ≤ 2715 / 224) :
    (s.measure r).averageCN ≤ 185 / 16 ∧ (s.measure r).averageSharp ≤ 2715 / 224 := by
  rw [measure_eq]
  have a0 := dA_le_of_unit (r 0) (hr 0).2
  have a1 := dA_le_of_unit (r 1) (hr 1).2
  have a2 := dA_le_of_unit (r 2) (hr 2).2
  have a3 := dA_le_of_unit (r 3) (hr 3).2
  have a4 := dA_le_of_unit (r 4) (hr 4).2
  have b0 := dB_le_of_unit (r 0) (hr 0).2
  have b1 := dB_le_of_unit (r 1) (hr 1).2
  have b2 := dB_le_of_unit (r 2) (hr 2).2
  have b3 := dB_le_of_unit (r 3) (hr 3).2
  have b4 := dB_le_of_unit (r 4) (hr 4).2
  constructor
  · show (s.averageCN + dA (r 0) + dA (r 1) + dA (r 2) + dA (r 3) + dA (r 4)) / 5 ≤ 185 / 16
    rw [div_le_iff₀ (by norm_num)]
    linarith
  · show (s.averageSharp + dB (r 0) + dB (r 1) + dB (r 2) + dB (r 3) + dB (r 4)) / 5
      ≤ 2715 / 224
    rw [div_le_iff₀ (by norm_num)]
    linarith

theorem averages_bounded_measureN (rs : List (Fin 5 → ℚ))
    (hrs : ∀ r ∈ rs, ∀ j, 0 ≤ r j ∧ r j ≤ 1) :
    ∀ s : GP2Y1010AU0F, s.averageCN ≤ 185 / 16 → s.averageSharp ≤ 2715 / 224 →
      (s.measureN rs).averageCN ≤ 185 / 16 ∧ (s.measureN rs).averageSharp ≤ 2715 / 224 := by
  induction rs with
  | nil => intro s h1 h2; exact ⟨h1, h2⟩
  | cons r rs ih =>
    intro s h1 h2
    have h := averages_bounded_step s r (hrs r (List.mem_cons_self _ _)) h1 h2
    exact ih (fun q hq => hrs q (List.mem_cons_of_mem _ hq)) (s.measure r) h.1 h.2

theorem percentFIntegerDigits_le_two (x : ℚ) (h : x < 99) :
    percentFIntegerDigits x ≤ 2 := by
  unfold percentFIntegerDigits
  have hlt : round (x * 1000000) < 99000001 := by
    rw [round_eq, Int.floor_lt]
    push_cast
    linarith
  have hn : (round (x * 1000000) / 1000000).toNat < 10 ^ 2 := by omega
  simp only
  split_ifs with hz
  · omega
  · rw [Nat.digits_len 10 _ (by norm_num) hz]
    have := Nat.log_lt_of_lt_pow hz hn
    omega

/-- C10: starting from the freshly constructed sampler, after any number of
`measure()` calls in which every raw reading lies in [0,1], the averages stay
bounded: 0 ≤ averageCN ≤ 185/16 and 0 ≤ averageSharp ≤ 2715/224; both are
below 100, and each is printed by `%f` with at most 2 digits before the
decimal point. -/
theorem averages_bounded_from_fresh (lightLed iled : Bool) (rs : List (Fin 5 → ℚ))
    (hrs : ∀ r ∈ rs, ∀ j, 0 ≤ r j ∧ r j ≤ 1) :
    (0 ≤ ((GP2Y1010AU0F.new lightLed iled).measureN rs).averageCN ∧
      ((GP2Y1010AU0F.new lightLed iled).measureN rs).averageCN ≤ 185 / 16) ∧
    (0 ≤ ((GP2Y1010AU0F.new lightLed iled).measureN rs).averageSharp ∧
      ((GP2Y1010AU0F.new lightLed iled).measureN rs).averageSharp ≤ 2715 / 224) ∧
    ((GP2Y1010AU0F.new lightLed iled).measureN rs).averageCN < 100 ∧
    ((GP2Y1010AU0F.new lightLed iled).measureN rs).averageSharp < 100 ∧
    percentFIntegerDigits ((GP2Y1010AU0F.new lightLed iled).measureN rs).averageCN ≤ 2 ∧
    percentFIntegerDigits ((GP2Y1010AU0F.new lightLed iled).measureN rs).averageSharp ≤ 2 := by
  have hfreshCN : (GP2Y1010AU0F.new lightLed iled).averageCN = 0 := rfl
  have hfreshSharp : (GP2Y1010AU0F.new lightLed iled).averageSharp = 0 := rfl
  have hlo := averages_nonneg_measureN rs (GP2Y1010AU0F.new lightLed iled)
    (le_of_eq hfreshCN.symm) (le_of_eq hfreshSharp.symm)
  have hhi := averages_bounded_measureN rs hrs (GP2Y1010AU0F.new lightLed iled)
    (by rw [hfreshCN]; norm_num) (by rw [hfreshSharp]; norm_num)
  refine ⟨⟨hlo.1, hhi.1⟩, ⟨hlo.2, hhi.2⟩, ?_, ?_, ?_, ?_⟩
  · linarith [hhi.1]
  · linarith [hhi.2]
  · exact percentFIntegerDigits_le_two _ (by linarith [hhi.1])
  · exact percentFIntegerDigits_le_two _ (by linarith [hhi.2])

/-- Witness for C10: two batches on a fresh sampler, the first with all
readings 1, the second with all readings 1/2. -/
theorem averages_bounded_from_fresh_witness :
    ((GP2Y1010AU0F.new false false).measureN [fun _ => 1, fun _ => 1 / 2]).averageCN
        ≤ 185 / 16 ∧
      ((GP2Y1010AU0F.new false false).measureN [fun _ => 1, fun _ => 1 / 2]).averageSharp
        ≤ 2715 / 224 :=
  have h := averages_bounded_from_fresh false false [fun _ => 1, fun _ => 1 / 2]
    (by
      intro r hr j
      simp only [List.mem_cons, List.mem_singleton, List.not_mem_nil, or_false] at hr
      rcases hr with rfl | rfl <;> norm_num)
  ⟨h.1.2, h.2.1.2⟩

/-- C5 (the claim fails on the code): on a fresh sampler the third reading
of a batch is 2, outside the range [0,1] of a valid reading; `measure()` still
takes the two remaining samples, increments `measureCount` and changes both
averages. -/
theorem measure_bad_sample_not_aborted :
    ¬ ((0 : ℚ) ≤ 2 ∧ (2 : ℚ) ≤ 1) ∧
      samplesRead ((GP2Y1010AU0F.new false false).measure ![0.5, 0.5, 2, 0.5, 0.5]).trace
        = [0.5, 0.5, 2, 0.5, 0.5] ∧
      ((GP2Y1010AU0F.new false false).measure ![0.5, 0.5, 2, 0.5, 0.5]).measureCount
        ≠ (GP2Y1010AU0F.new false false).measureCount ∧
      ((GP2Y1010AU0F.new false false).measure ![0.5, 0.5, 2, 0.5, 0.5]).averageCN
        ≠ (GP2Y1010AU0F.new false false).averageCN ∧
      ((GP2Y1010AU0F.new false false).measure ![0.5, 0.5, 2, 0.5, 0.5]).averageSharp
        ≠ (GP2Y1010AU0F.new false false).averageSharp := by
  have hA : dA 0.5 = 183 / 40 := by norm_num [dA]
  have hB : dB 0.5 = 67 / 14 := by norm_num [dB]
  have hA2 : dA 2 = 93 / 5 := by norm_num [dA]
  have hB2 : dB 2 = 1093 / 56 := by norm_num [dB]
  refine ⟨by norm_num, ?_, ?_, ?_, ?_⟩
  · rw [measure_eq]
    rfl
  · rw [measure_eq]
    show wrapInt32 (0 + 1) ≠ 0
    decide
  · rw [measure_eq]
    show (0 + dA 0.5 + dA 0.5 + dA 2 + dA 0.5 + dA 0.5) / 5 ≠ 0
    rw [hA, hA2]; norm_num
  · rw [measure_eq]
    show (0 + dB 0.5 + dB 0.5 + dB 2 + dB 0.5 + dB 0.5) / 5 ≠ 0
    rw [hB, hB2]; norm_num

/-- C5 (amended): `measure()` has no failure path.  `_sampleAOUT` hands on
whatever the converter delivers, unchecked; for every sampler state and every
5 readings, inside [0,1] or not, the call performs all 5 reads in order, and
when the counter is a 32-bit `int` below the `int` maximum it is incremented
by exactly one, so no reading leaves it unchanged. -/
theorem measure_always_completes (s : GP2Y1010AU0F) (r : Fin 5 → ℚ) :
    (∀ (v : ℚ) (t : GP2Y1010AU0F), (t._sampleAOUT v).1 = v) ∧
      s.trace <+: (s.measure r).trace ∧
      samplesRead ((s.measure r).trace.drop s.trace.length) = [r 0, r 1, r 2, r 3, r 4] ∧
      (-2147483648 ≤ s.measureCount → s.measureCount < 2147483647 →
        (s.measure r).measureCount = s.measureCount + 1 ∧
        (s.measure r).measureCount ≠ s.measureCount) := by
  refine ⟨fun _ _ => rfl, measure_trace_extends s r, ?_, ?_⟩
  · rw [measure_newEvents]
    rfl
  · intro hlo hhi
    have h : (s.measure r).measureCount = s.measureCount + 1 := by
      rw [measureCount_measure]
      exact wrapInt32_of_inRange _ (by omega) (by omega)
    exact ⟨h, by omega⟩

/-- Witness for C5 (amended): a sampler whose counter stands at 7 is given a
batch whose third reading is -1. -/
theorem measure_always_completes_witness :
    (({ GP2Y1010AU0F.new false false with measureCount := 7 } : GP2Y1010AU0F).measure
        ![0.5, 0.5, -1, 0.5, 0.5]).measureCount = 7 + 1 :=
  ((measure_always_completes
    ({ GP2Y1010AU0F.new false false with measureCount := 7 } : GP2Y1010AU0F)
    ![0.5, 0.5, -1, 0.5, 0.5]).2.2.2 (by decide) (by decide)).1

end GP2Y1010AU0F

end Dust
